import Mathlib

/-!
Shallow embedding of `marshmallow_polyfield/polyfield.py` (class `PolyField`,
methods `_deserialize` and `_serialize`) and proofs about it.

Python values are modelled by the inductive `V`; Python exceptions that derive
from `Exception` are modelled by `PyError`, and a computation that may raise is
an `Except PyError` value.  The two marshmallow host conventions (3.x bare
results versus 2.x result/errors pairs) are threaded through as a boolean `m3`
mirroring the module-level `MARSHMALLOW_3` flag.
-/

set_option maxRecDepth 8000

namespace Polyfield

/-- Model of the Python values this component manipulates. -/
inductive V where
  | none
  | bool (b : Bool)
  | int (n : Int)
  | str (s : String)
  | list (vs : List V)

mutual

/-- Decidable equality on values (the nested `list` constructor prevents
automatic derivation). -/
def V.decEq : (a b : V) → Decidable (a = b)
  | .none, .none => isTrue rfl
  | .none, .bool _ => isFalse nofun
  | .none, .int _ => isFalse nofun
  | .none, .str _ => isFalse nofun
  | .none, .list _ => isFalse nofun
  | .bool _, .none => isFalse nofun
  | .bool a, .bool b =>
      if h : a = b then isTrue (h ▸ rfl) else isFalse fun e => h (V.bool.inj e)
  | .bool _, .int _ => isFalse nofun
  | .bool _, .str _ => isFalse nofun
  | .bool _, .list _ => isFalse nofun
  | .int _, .none => isFalse nofun
  | .int _, .bool _ => isFalse nofun
  | .int a, .int b =>
      if h : a = b then isTrue (h ▸ rfl) else isFalse fun e => h (V.int.inj e)
  | .int _, .str _ => isFalse nofun
  | .int _, .list _ => isFalse nofun
  | .str _, .none => isFalse nofun
  | .str _, .bool _ => isFalse nofun
  | .str _, .int _ => isFalse nofun
  | .str a, .str b =>
      if h : a = b then isTrue (h ▸ rfl) else isFalse fun e => h (V.str.inj e)
  | .str _, .list _ => isFalse nofun
  | .list _, .none => isFalse nofun
  | .list _, .bool _ => isFalse nofun
  | .list _, .int _ => isFalse nofun
  | .list _, .str _ => isFalse nofun
  | .list a, .list b =>
      match V.decEqList a b with
      | isTrue h => isTrue (h ▸ rfl)
      | isFalse h => isFalse fun e => h (V.list.inj e)

/-- Decidable equality on lists of values. -/
def V.decEqList : (a b : List V) → Decidable (a = b)
  | [], [] => isTrue rfl
  | [], _ :: _ => isFalse nofun
  | _ :: _, [] => isFalse nofun
  | x :: xs, y :: ys =>
      match V.decEq x y, V.decEqList xs ys with
      | isTrue h₁, isTrue h₂ => isTrue (h₁ ▸ h₂ ▸ rfl)
      | isFalse h₁, _ => isFalse fun e => h₁ (List.cons.injEq .. ▸ e |>.1)
      | _, isFalse h₂ => isFalse fun e => h₂ (List.cons.injEq .. ▸ e |>.2)

end

instance : DecidableEq V := V.decEq

/-- Python truthiness of a modelled value (`bool(v)`). -/
def vTruthy : V → Bool
  | .none => false
  | .bool b => b
  | .int n => n != 0
  | .str s => !s.isEmpty
  | .list vs => !vs.isEmpty

mutual

/-- Model of `str(v)` for a value, used when the source interpolates a value
into an error message with `str.format`. -/
def pyStr : V → String
  | .none => "None"
  | .bool true => "True"
  | .bool false => "False"
  | .int n => toString n
  | .str s => s
  | .list vs => "[" ++ pyStrList vs ++ "]"

/-- Comma-separated rendering of the elements of a list value. -/
def pyStrList : List V → String
  | [] => ""
  | [v] => pyStr v
  | v :: vs => pyStr v ++ ", " ++ pyStrList vs

end

/-- Model of a `context` dict: an association list from keys to values. -/
abbrev Ctx := List (String × V)

/-- Dictionary lookup: first binding of the key wins. -/
def ctxLookup (k : String) : Ctx → Option V
  | [] => Option.none
  | kv :: rest => if kv.1 = k then Option.some kv.2 else ctxLookup k rest

/-- Model of `base.update(upd)` at the mapping level: every key of `upd` maps
to its `upd` value, every other key keeps its `base` value. -/
def ctxUpdate (base upd : Ctx) : Ctx :=
  base.filter (fun kv => (ctxLookup kv.1 upd).isNone) ++ upd

/-- Model of Python exceptions (all deriving from `Exception`). -/
inductive PyError where
  | validationError (content : V)
  | typeError (msg : String)
  | attributeError (msg : String)
  | exn (msg : String)
  deriving DecidableEq

/-- Decidable equality for fallible results, so that concrete runs of the
embedded operations can be settled by `decide`. -/
def exceptDecEq {ε α : Type} [DecidableEq ε] [DecidableEq α] :
    (a b : Except ε α) → Decidable (a = b)
  | .error a, .error b =>
      if h : a = b then isTrue (h ▸ rfl)
      else isFalse fun e => h (Except.error.inj e)
  | .error _, .ok _ => isFalse nofun
  | .ok _, .error _ => isFalse nofun
  | .ok a, .ok b =>
      if h : a = b then isTrue (h ▸ rfl)
      else isFalse fun e => h (Except.ok.inj e)

instance {ε α : Type} [DecidableEq ε] [DecidableEq α] :
    DecidableEq (Except ε α) := exceptDecEq

/-- Model of `str(err)` for an exception. -/
def pyErrStr : PyError → String
  | .validationError c => pyStr c
  | .typeError m => m
  | .attributeError m => m
  | .exn m => m

/-- Substring containment between strings, used to state that an error message
mentions a value or a type name. -/
abbrev strContains (hay needle : String) : Prop :=
  needle.data <:+: hay.data

theorem ctxLookup_append_some {k : String} {l₁ : Ctx} {v : V} (l₂ : Ctx)
    (h : ctxLookup k l₁ = Option.some v) :
    ctxLookup k (l₁ ++ l₂) = Option.some v := by
  induction l₁ with
  | nil => cases h
  | cons kv rest ih =>
      by_cases hk : kv.1 = k
      · simpa [ctxLookup, hk] using h
      · rw [ctxLookup, if_neg hk] at h
        simpa [ctxLookup, hk] using ih h

theorem ctxLookup_append_none {k : String} {l₁ : Ctx} (l₂ : Ctx)
    (h : ctxLookup k l₁ = Option.none) :
    ctxLookup k (l₁ ++ l₂) = ctxLookup k l₂ := by
  induction l₁ with
  | nil => rfl
  | cons kv rest ih =>
      by_cases hk : kv.1 = k
      · simp [ctxLookup, hk] at h
      · rw [ctxLookup, if_neg hk] at h
        simpa [ctxLookup, hk] using ih h

theorem ctxLookup_filter_of_upd {k : String} {upd : Ctx} {val : V} (base : Ctx)
    (h : ctxLookup k upd = Option.some val) :
    ctxLookup k (base.filter (fun kv => (ctxLookup kv.1 upd).isNone))
      = Option.none := by
  induction base with
  | nil => rfl
  | cons kv rest ih =>
      rw [List.filter_cons]
      by_cases hp : (ctxLookup kv.1 upd).isNone
      · have hk : kv.1 ≠ k := by
          intro he
          rw [he, h] at hp
          cases hp
        simp [hp, ctxLookup, hk, ih]
      · simp [hp, ih]

/-- After `base.update(upd)`, a key present in `upd` maps to its `upd` value:
the updating mapping wins on overlapping keys. -/
theorem ctxUpdate_lookup_upd {base upd : Ctx} {k : String} {val : V}
    (h : ctxLookup k upd = Option.some val) :
    ctxLookup k (ctxUpdate base upd) = Option.some val := by
  unfold ctxUpdate
  rw [ctxLookup_append_none _ (ctxLookup_filter_of_upd base h)]
  exact h

/-- After `base.update(upd)`, a key absent from `upd` keeps its `base` value:
non-overlapping keys of the updated mapping are preserved. -/
theorem ctxUpdate_lookup_base {base upd : Ctx} {k : String}
    (h : ctxLookup k upd = Option.none) :
    ctxLookup k (ctxUpdate base upd) = ctxLookup k base := by
  unfold ctxUpdate
  induction base with
  | nil => simpa [ctxLookup] using h
  | cons kv rest ih =>
      rw [List.filter_cons]
      by_cases hp : (ctxLookup kv.1 upd).isNone
      · by_cases hk : kv.1 = k
        · simp [hp, ctxLookup, hk, h]
        · simpa [hp, ctxLookup, hk] using ih
      · have hk : kv.1 ≠ k := by
          intro he
          rw [he, h] at hp
          exact hp rfl
        simpa [hp, ctxLookup, hk] using ih

/-- Model of a marshmallow `Schema` instance.  Its behaviour is a pure
function of its `context` and its argument; the destructive
`schema.context.update(...)` of the source is modelled by calling the
behaviour with the updated context.  `load3`/`dump3` model the marshmallow 3
convention (bare result, validation failures raised); `load2`/`dump2` model
the marshmallow 2 convention of returning a (data, errors) pair. -/
structure SchemaS where
  typeName : String
  hasContext : Bool
  ctx : Ctx
  load3 : Ctx → V → Except PyError V
  load2 : Ctx → V → Except PyError (V × V)
  dump3 : Ctx → V → Except PyError V
  dump2 : Ctx → V → Except PyError (V × V)

/-- Model of a marshmallow `Field` instance; `deserializeFn` models its
`deserialize(value, attr, data)` method as a function of its context. -/
structure FieldS where
  typeName : String
  hasContext : Bool
  ctx : Ctx
  deserializeFn : Ctx → V → String → V → Except PyError V

/-- Model of an arbitrary Python object a selector may return: a `Schema`
instance, a `Field` instance, a bare class (whose zero-argument call is
`construct`, and whose `str(type(cls))` is the metaclass name `metaName`),
or any other object carrying its type name and its truthiness. -/
inductive PyObj where
  | schemaInst (s : SchemaS)
  | fieldInst (f : FieldS)
  | typeObj (metaName : String) (construct : Except PyError PyObj)
  | otherObj (name : String) (truthy : Bool)

/-- Model of `str(type(obj))`. -/
def pyTypeName : PyObj → String
  | .schemaInst s => s.typeName
  | .fieldInst f => f.typeName
  | .typeObj metaName _ => metaName
  | .otherObj name _ => name

/-- Model of `bool(obj)`: marshmallow schema and field instances, and classes,
are truthy; other objects carry their own truthiness (for example `0`, an
empty string and an empty dict are falsy). -/
def pyTruthy : PyObj → Bool
  | .schemaInst _ => true
  | .fieldInst _ => true
  | .typeObj _ _ => true
  | .otherObj _ truthy => truthy

/-- Whether `isinstance(obj, (Field, Schema))` holds. -/
def isDelegateInst : PyObj → Bool
  | .schemaInst _ => true
  | .fieldInst _ => true
  | _ => false

/-- The successfully selected delegate: a schema instance or field instance. -/
inductive Delegate where
  | schemaD (s : SchemaS)
  | fieldD (f : FieldS)

/-- Type of `deserialization_schema_selector` functions: called with the
element and the enclosing data, either raising or returning an object. -/
abbrev DSel := V → V → Except PyError PyObj

/-- Type of `serialization_schema_selector` functions. -/
abbrev SSel := V → V → Except PyError PyObj

/-- Classification of a selector result after the type-instantiation step:
the `isinstance(deserializer, (Field, Schema))` check of the source.  On
failure the offending instance is returned so the error message can name it. -/
def normInst : PyObj → Except (Option PyObj) Delegate
  | .schemaInst s => .ok (.schemaD s)
  | .fieldInst f => .ok (.fieldD f)
  | o => .error (.some o)

/-- The selection block of `_deserialize` (the `try` body of lines 48 to 53):
call the selector, instantiate a bare class with no arguments, check the
result is a field or schema instance.  An `.error des` outcome models the
`except Exception` branch being reached with the local variable
`deserializer` holding `des` (`.none` models the Python `None` it was
initialised to). -/
def runSelection (sel : DSel) (v d : V) : Except (Option PyObj) Delegate :=
  match sel v d with
  | .error _ => .error .none
  | .ok (.typeObj metaName construct) =>
      match construct with
      | .error _ => .error (.some (.typeObj metaName construct))
      | .ok inst => normInst inst
  | .ok obj => normInst obj

/-- The `str(type(deserializer)) if deserializer else None` computation of
lines 55 to 57: the type name is recorded only when the variable holds a
truthy object. -/
def classTypeOf : Option PyObj → Option String
  | .none => .none
  | .some o => if pyTruthy o then .some (pyTypeName o) else .none

/-- Model of how `str.format` renders an optional string argument: Python
renders `None` as the string `None`. -/
def fmtOptStr : Option String → String
  | .none => "None"
  | .some s => s

/-- The message of the `ValidationError` raised on selection failure
(lines 59 to 67 of the source), with the two interpolated holes filled in. -/
def selectionErrorMsg (valuePassed classType : String) : String :=
  "Unable to use schema. Ensure there is a deserialization_schema_selector" ++
    " and that it returns a field or a schema when the function is passed in " ++
    valuePassed ++
    ". This is the class I got. " ++
    "Make sure it is a field or a schema: " ++
    classType

/-- The schema branch of element deserialization (lines 75 to 82): call
`load`, and under the marshmallow 2 convention raise a `ValidationError`
carrying the structured errors when the errors dict is truthy. -/
def schemaLoadPart (m3 : Bool) (s : SchemaS) (c : Ctx) (v : V) :
    Except PyError V :=
  if m3 then s.load3 c v
  else
    match s.load2 c v with
    | .error e => .error e
    | .ok (dta, errs) =>
        if vTruthy errs then .error (.validationError errs) else .ok dta

/-- The dump step of serialization (lines 102 to 107 and 112 to 116): under
the marshmallow 2 convention the `.data` component of the result is taken. -/
def schemaDumpPart (m3 : Bool) (s : SchemaS) (c : Ctx) (v : V) :
    Except PyError V :=
  if m3 then s.dump3 c v
  else
    match s.dump2 c v with
    | .error e => .error e
    | .ok (dta, _) => .ok dta

/-- One iteration of the `_deserialize` loop body (lines 46 to 84) on element
`v` with the current value `d` of the (reassigned) `data` variable: select a
delegate, on failure raise the selection `ValidationError`, otherwise merge
the field context into the delegate context when the delegate has one and
delegate to `deserialize` or `load`. -/
def deserializeElem (m3 : Bool) (sel : DSel) (fieldCtx : Ctx) (attr : String)
    (v d : V) : Except PyError V :=
  match runSelection sel v d with
  | .error des =>
      .error (.validationError
        (.str (selectionErrorMsg (pyStr v) (fmtOptStr (classTypeOf des)))))
  | .ok (.fieldD f) =>
      f.deserializeFn
        (if f.hasContext then ctxUpdate f.ctx fieldCtx else f.ctx) v attr d
  | .ok (.schemaD s) =>
      schemaLoadPart m3 s
        (if s.hasContext then ctxUpdate s.ctx fieldCtx else s.ctx) v

/-- The `_deserialize` loop (lines 45 to 84).  Note that the source assigns
each element result to the variable `data` before appending it, so the next
iteration sees the previous element result as its enclosing data. -/
def deserializeLoop (m3 : Bool) (sel : DSel) (fieldCtx : Ctx) (attr : String) :
    List V → V → Except PyError (List V)
  | [], _ => .ok []
  | v :: vs, d =>
      match deserializeElem m3 sel fieldCtx attr v d with
      | .error e => .error e
      | .ok r =>
          match deserializeLoop m3 sel fieldCtx attr vs r with
          | .error e => .error e
          | .ok rs => .ok (r :: rs)

/-- Model of Python iteration `for v in value`: a list yields its elements, a
string yields its characters, everything else raises a `TypeError`. -/
def pyIter : V → Except PyError (List V)
  | .list vs => .ok vs
  | .str s => .ok (s.data.map fun c => .str (String.singleton c))
  | v => .error (.typeError ("object is not iterable: " ++ pyStr v))

/-- Model of `PolyField._deserialize(value, attr, data)` for a field built
with the given selector and `many` flag, whose own context is `fieldCtx`,
running under marshmallow 3 when `m3` is true. -/
def polyDeserialize (m3 many : Bool) (sel : DSel) (fieldCtx : Ctx)
    (value : V) (attr : String) (data : V) : Except PyError V :=
  match (if many then pyIter value else .ok [value]) with
  | .error e => .error e
  | .ok seq =>
      match deserializeLoop m3 sel fieldCtx attr seq data with
      | .error e => .error e
      | .ok results =>
          if many then .ok (.list results)
          else
            match results with
            | r :: _ => .ok r
            | [] => .error (.exn "IndexError: list index out of range")

/-- Per-element body of `_serialize` (lines 99 to 107 and 110 to 116): call
the serialization selector, update the returned schema context in place and
dump.  A result that is not a schema instance, or a schema without a context
attribute, raises an `AttributeError` when its `context` or `dump` attribute
is accessed. -/
def serializeElem (m3 : Bool) (sel : SSel) (fieldCtx : Ctx) (v obj : V) :
    Except PyError V :=
  match sel v obj with
  | .error e => .error e
  | .ok (.schemaInst s) =>
      if s.hasContext then
        schemaDumpPart m3 s (ctxUpdate s.ctx fieldCtx) v
      else .error (.attributeError (s.typeName ++ " has no attribute context"))
  | .ok o => .error (.attributeError (pyTypeName o ++ " has no attribute context"))

/-- The `_serialize` loop over a `many` collection (lines 97 to 108); the
enclosing object `obj` is passed unchanged to every selector call. -/
def serializeLoop (m3 : Bool) (sel : SSel) (fieldCtx : Ctx) (obj : V) :
    List V → Except PyError (List V)
  | [] => .ok []
  | v :: vs =>
      match serializeElem m3 sel fieldCtx v obj with
      | .error e => .error e
      | .ok r =>
          match serializeLoop m3 sel fieldCtx obj vs with
          | .error e => .error e
          | .ok rs => .ok (r :: rs)

/-- The whole `try` body of `_serialize` (lines 95 to 116). -/
def serializeBody (m3 many : Bool) (sel : SSel) (fieldCtx : Ctx)
    (value obj : V) : Except PyError V :=
  if many then
    match pyIter value with
    | .error e => .error e
    | .ok vs =>
        match serializeLoop m3 sel fieldCtx obj vs with
        | .error e => .error e
        | .ok rs => .ok (.list rs)
  else serializeElem m3 sel fieldCtx value obj

/-- The message of the `TypeError` raised by `_serialize` on any failure
(lines 118 to 122), with the two interpolated holes filled in. -/
def serializeErrorMsg (errStr valueStr : String) : String :=
  "Failed to serialize object. Error: " ++ errStr ++
    "\n Ensure the serialization_schema_selector exists and " ++
    " returns a Schema and that schema" ++
    " can serialize this value " ++ valueStr

/-- Model of `PolyField._serialize(value, key, obj)`: `None` short-circuits,
and any exception from the body is re-raised as a `TypeError` naming the
original error and the value. -/
def polySerialize (m3 many : Bool) (sel : SSel) (fieldCtx : Ctx)
    (value obj : V) : Except PyError V :=
  if value = V.none then .ok V.none
  else
    match serializeBody m3 many sel fieldCtx value obj with
    | .ok r => .ok r
    | .error err =>
        .error (.typeError (serializeErrorMsg (pyErrStr err) (pyStr value)))

theorem stringDataAppend (a b : String) : (a ++ b).data = a.data ++ b.data := by
  cases a
  cases b
  rfl

theorem strContains_parts (hay a b c : String) (h : a.data ++ b.data ++ c.data = hay.data) :
    strContains hay b :=
  ⟨a.data, c.data, h⟩

theorem selectionErrorMsg_contains_value (vp ct : String) :
    strContains (selectionErrorMsg vp ct) vp := by
  refine strContains_parts _
    ("Unable to use schema. Ensure there is a deserialization_schema_selector" ++
      " and that it returns a field or a schema when the function is passed in ")
    vp
    (". This is the class I got. " ++ "Make sure it is a field or a schema: " ++ ct) ?_
  simp [selectionErrorMsg, stringDataAppend, List.append_assoc]

theorem selectionErrorMsg_contains_class (vp ct : String) :
    strContains (selectionErrorMsg vp ct) ct := by
  refine strContains_parts _
    ("Unable to use schema. Ensure there is a deserialization_schema_selector" ++
      " and that it returns a field or a schema when the function is passed in " ++
      vp ++ ". This is the class I got. " ++ "Make sure it is a field or a schema: ")
    ct "" ?_
  simp [selectionErrorMsg, stringDataAppend, List.append_assoc]

theorem serializeErrorMsg_contains_err (es vs : String) :
    strContains (serializeErrorMsg es vs) es := by
  refine strContains_parts _ "Failed to serialize object. Error: " es
    ("\n Ensure the serialization_schema_selector exists and " ++
      " returns a Schema and that schema" ++ " can serialize this value " ++ vs) ?_
  simp [serializeErrorMsg, stringDataAppend, List.append_assoc]

theorem serializeErrorMsg_contains_value (es vs : String) :
    strContains (serializeErrorMsg es vs) vs := by
  refine strContains_parts _
    ("Failed to serialize object. Error: " ++ es ++
      "\n Ensure the serialization_schema_selector exists and " ++
      " returns a Schema and that schema" ++ " can serialize this value ")
    vs "" ?_
  simp [serializeErrorMsg, stringDataAppend, List.append_assoc]

theorem deserializeLoop_sound (m3 : Bool) (sel : DSel) (c : Ctx) (attr : String) :
    ∀ (vs : List V) (d : V) (rs : List V),
      deserializeLoop m3 sel c attr vs d = Except.ok rs →
      rs.length = vs.length ∧
      ∀ i (hv : i < vs.length) (hr : i < rs.length),
        ∃ dp, deserializeElem m3 sel c attr (vs.get ⟨i, hv⟩) dp
            = Except.ok (rs.get ⟨i, hr⟩) := by
  intro vs
  induction vs with
  | nil =>
      intro d rs h
      simp only [deserializeLoop] at h
      cases h
      exact ⟨rfl, fun i hv _ => absurd hv (by simp)⟩
  | cons v vs ih =>
      intro d rs h
      cases he : deserializeElem m3 sel c attr v d with
      | error e => simp [deserializeLoop, he] at h
      | ok r =>
          cases hl : deserializeLoop m3 sel c attr vs r with
          | error e => simp [deserializeLoop, he, hl] at h
          | ok rs' =>
              simp only [deserializeLoop, he, hl] at h
              cases h
              obtain ⟨hlen, hidx⟩ := ih r rs' hl
              refine ⟨by simp [hlen], ?_⟩
              intro i hv hr
              cases i with
              | zero => exact ⟨d, by simpa using he⟩
              | succ n =>
                  have hv' : n < vs.length := by simpa using hv
                  have hr' : n < rs'.length := by simpa using hr
                  obtain ⟨dp, hdp⟩ := hidx n hv' hr'
                  exact ⟨dp, by simpa using hdp⟩

theorem serializeLoop_sound (m3 : Bool) (sel : SSel) (c : Ctx) (obj : V) :
    ∀ (vs : List V) (rs : List V),
      serializeLoop m3 sel c obj vs = Except.ok rs →
      rs.length = vs.length ∧
      ∀ i (hv : i < vs.length) (hr : i < rs.length),
        serializeElem m3 sel c (vs.get ⟨i, hv⟩) obj
          = Except.ok (rs.get ⟨i, hr⟩) := by
  intro vs
  induction vs with
  | nil =>
      intro rs h
      simp only [serializeLoop] at h
      cases h
      exact ⟨rfl, fun i hv _ => absurd hv (by simp)⟩
  | cons v vs ih =>
      intro rs h
      cases he : serializeElem m3 sel c v obj with
      | error e => simp [serializeLoop, he] at h
      | ok r =>
          cases hl : serializeLoop m3 sel c obj vs with
          | error e => simp [serializeLoop, he, hl] at h
          | ok rs' =>
              simp only [serializeLoop, he, hl] at h
              cases h
              obtain ⟨hlen, hidx⟩ := ih rs' hl
              refine ⟨by simp [hlen], ?_⟩
              intro i hv hr
              cases i with
              | zero => simpa using he
              | succ n =>
                  have hv' : n < vs.length := by simpa using hv
                  have hr' : n < rs'.length := by simpa using hr
                  simpa using hidx n hv' hr'

/-- Deserialization loop as the spec describes it (section 4.2): every
element is processed independently, each selector and delegate call receiving
the original `enclosing_data` argument `d`.  Compared against
`deserializeLoop`, which reassigns `data` between iterations. -/
def specDeserializeLoop (m3 : Bool) (sel : DSel) (fieldCtx : Ctx)
    (attr : String) (d : V) : List V → Except PyError (List V)
  | [] => .ok []
  | v :: vs =>
      match deserializeElem m3 sel fieldCtx attr v d with
      | .error e => .error e
      | .ok r =>
          match specDeserializeLoop m3 sel fieldCtx attr d vs with
          | .error e => .error e
          | .ok rs => .ok (r :: rs)

/-- A concrete schema whose load and dump echo their argument and report no
errors, used for concrete runs. -/
def echoSchema : SchemaS where
  typeName := "<class EchoSchema>"
  hasContext := true
  ctx := []
  load3 := fun _ v => .ok v
  load2 := fun _ v => .ok (v, .list [])
  dump3 := fun _ v => .ok v
  dump2 := fun _ v => .ok (v, .list [])

/-- A concrete selector that accepts any element but raises unless the
enclosing data it receives is the original parent value `"parent"`. -/
def parentCheckSel : DSel := fun _ d =>
  if d = V.str "parent" then .ok (.schemaInst echoSchema)
  else .error (.exn "selector got unexpected parent data")

/-- A concrete selector returning the falsy non-schema object `0`. -/
def falsySel : DSel := fun _ _ => .ok (.otherObj "<class int>" false)

/-- A concrete selector that always raises. -/
def raisingSel : DSel := fun _ _ => .error (.exn "boom")

/-- A concrete selector that always returns the echo schema instance. -/
def echoSel : DSel := fun _ _ => .ok (.schemaInst echoSchema)

/-- A concrete selector returning a bare class that constructs to a plain
object which is neither a schema nor a field. -/
def typeSel : DSel := fun _ _ =>
  .ok (.typeObj "<class type>" (.ok (.otherObj "<class object>" true)))

/-- A concrete schema whose load reports a structured validation error. -/
def badSchema : SchemaS where
  typeName := "<class BadSchema>"
  hasContext := true
  ctx := []
  load3 := fun _ _ => .error (.validationError (.list [.str "bad"]))
  load2 := fun _ _ => .ok (V.none, .list [.str "bad"])
  dump3 := fun _ v => .ok v
  dump2 := fun _ v => .ok (v, .list [])

/-- A concrete selector that always returns the bad schema instance. -/
def badSel : DSel := fun _ _ => .ok (.schemaInst badSchema)

/-- C1: the claim says each element of a `many` deserialization is processed
with `enclosing_data` always equal to the original third argument.  The code
reassigns the `data` variable to each element result inside the loop, so the
selector for the second element receives the first element result instead of
the original data.  Concretely: with elements `[1, 2]`, original data
`"parent"` and a selector that raises unless its second argument is
`"parent"`, the code fails on element `2` (which received `1` as data), while
the independent processing the claim describes succeeds, and processing
element `2` with the original data also succeeds. -/
theorem C1_data_clobber_eval :
    polyDeserialize true true parentCheckSel [] (V.list [V.int 1, V.int 2])
        "attr" (V.str "parent")
      = .error (.validationError (.str (selectionErrorMsg "2" "None"))) ∧
    specDeserializeLoop true parentCheckSel [] "attr" (V.str "parent")
        [V.int 1, V.int 2] = .ok [V.int 1, V.int 2] ∧
    deserializeElem true parentCheckSel [] "attr" (V.int 2) (V.str "parent")
      = .ok (V.int 2) := by
  refine ⟨by decide, by decide, by decide⟩

/-- C2: for a single (`many = false`) value for which the deserialization
selector yields a valid schema instance that accepts the value, deserialize
returns exactly the result of that schema load, bare under the marshmallow 3
convention and unwrapped from the (data, errors) pair under the marshmallow 2
convention. -/
theorem C2_single_value_load (sel : DSel) (fieldCtx : Ctx) (v : V)
    (attr : String) (d : V) (s : SchemaS)
    (hsel : runSelection sel v d = .ok (.schemaD s)) :
    (∀ r, s.load3 (if s.hasContext then ctxUpdate s.ctx fieldCtx else s.ctx) v
        = .ok r →
      polyDeserialize true false sel fieldCtx v attr d = .ok r) ∧
    (∀ r errs,
      s.load2 (if s.hasContext then ctxUpdate s.ctx fieldCtx else s.ctx) v
        = .ok (r, errs) →
      vTruthy errs = false →
      polyDeserialize false false sel fieldCtx v attr d = .ok r) := by
  constructor
  · intro r hload
    simp [polyDeserialize, deserializeLoop, deserializeElem, hsel,
      schemaLoadPart, hload]
  · intro r errs hload herrs
    simp [polyDeserialize, deserializeLoop, deserializeElem, hsel,
      schemaLoadPart, hload, herrs]

theorem C2_witness :
    polyDeserialize true false echoSel [] (V.int 7) "attr" V.none
        = .ok (V.int 7) ∧
    polyDeserialize false false echoSel [] (V.int 7) "attr" V.none
        = .ok (V.int 7) := by
  have h := C2_single_value_load echoSel [] (V.int 7) "attr" V.none echoSchema
    rfl
  exact ⟨h.1 (V.int 7) rfl, h.2 (V.int 7) (V.list []) rfl rfl⟩

/-- C9: serializing the `None` sentinel returns `None` immediately for every
selector, context and `many` flag, so the serialization selector is never
consulted and no merge or dump can happen. -/
theorem C9_serialize_none_shortcircuit (m3 many : Bool) (sel : SSel)
    (fieldCtx : Ctx) (obj : V) :
    polySerialize m3 many sel fieldCtx V.none obj = .ok V.none := by
  simp [polySerialize]

/-- C10: the deserialization path has no null short-circuit: with
`many = false` a `None` input is wrapped into a one-element sequence and fed
to the deserialization selector, so a selector that raises on `None` turns
the call into a selection `ValidationError` (whose message interpolates the
value as the string `None` and the resolved class as `None`) instead of the
`None` value being returned unchanged. -/
theorem C10_deserialize_none_no_shortcircuit (m3 : Bool) (sel : DSel)
    (fieldCtx : Ctx) (attr : String) (d : V) (e : PyError)
    (hraise : sel V.none d = .error e) :
    polyDeserialize m3 false sel fieldCtx V.none attr d
      = .error (.validationError (.str (selectionErrorMsg "None" "None"))) ∧
    polyDeserialize m3 false sel fieldCtx V.none attr d ≠ .ok V.none := by
  have hs : runSelection sel V.none d = .error Option.none := by
    simp [runSelection, hraise]
  constructor
  · simp [polyDeserialize, deserializeLoop, deserializeElem, hs, classTypeOf,
      fmtOptStr, pyStr]
  · simp [polyDeserialize, deserializeLoop, deserializeElem, hs]

theorem C10_witness :
    polyDeserialize true false raisingSel [] V.none "attr" (V.str "parent")
      = .error (.validationError (.str (selectionErrorMsg "None" "None"))) ∧
    polyDeserialize true false raisingSel [] V.none "attr" (V.str "parent")
      ≠ .ok V.none := by
  exact C10_deserialize_none_no_shortcircuit true raisingSel [] "attr"
    (V.str "parent") (.exn "boom") rfl

/-- C3: on both the deserialization and the serialization path, a successful
`many = true` call over an ordered input sequence returns an output sequence
of the same length in which the element at every index is a successful
per-element delegation result for the input element at that same index (for
deserialization, with whatever enclosing-data value the loop threaded to that
iteration), so input order is preserved. -/
theorem C3_order_and_length :
    (∀ (m3 : Bool) (sel : DSel) (fieldCtx : Ctx) (attr : String) (d : V)
        (vs : List V) (out : V),
      polyDeserialize m3 true sel fieldCtx (V.list vs) attr d = .ok out →
      ∃ rs, out = V.list rs ∧ rs.length = vs.length ∧
        ∀ i (hv : i < vs.length) (hr : i < rs.length),
          ∃ dp, deserializeElem m3 sel fieldCtx attr (vs.get ⟨i, hv⟩) dp
              = .ok (rs.get ⟨i, hr⟩)) ∧
    (∀ (m3 : Bool) (sel : SSel) (fieldCtx : Ctx) (obj : V) (vs : List V)
        (out : V),
      polySerialize m3 true sel fieldCtx (V.list vs) obj = .ok out →
      ∃ rs, out = V.list rs ∧ rs.length = vs.length ∧
        ∀ i (hv : i < vs.length) (hr : i < rs.length),
          serializeElem m3 sel fieldCtx (vs.get ⟨i, hv⟩) obj
            = .ok (rs.get ⟨i, hr⟩)) := by
  constructor
  · intro m3 sel fieldCtx attr d vs out h
    cases hl : deserializeLoop m3 sel fieldCtx attr vs d with
    | error e => simp [polyDeserialize, pyIter, hl] at h
    | ok rs =>
        simp [polyDeserialize, pyIter, hl] at h
        obtain ⟨hlen, hidx⟩ := deserializeLoop_sound m3 sel fieldCtx attr vs d
          rs hl
        exact ⟨rs, h.symm, hlen, hidx⟩
  · intro m3 sel fieldCtx obj vs out h
    cases hl : serializeLoop m3 sel fieldCtx obj vs with
    | error e =>
        have hb : serializeBody m3 true sel fieldCtx (V.list vs) obj
            = .error e := by
          simp [serializeBody, pyIter, hl]
        simp [polySerialize, hb] at h
    | ok rs =>
        have hb : serializeBody m3 true sel fieldCtx (V.list vs) obj
            = .ok (V.list rs) := by
          simp [serializeBody, pyIter, hl]
        simp [polySerialize, hb] at h
        obtain ⟨hlen, hidx⟩ := serializeLoop_sound m3 sel fieldCtx obj vs rs hl
        exact ⟨rs, h.symm, hlen, hidx⟩

theorem C3_witness :
    (∃ rs, V.list [V.int 1, V.int 2] = V.list rs ∧
      rs.length = [V.int 1, V.int 2].length ∧
      ∀ i (hv : i < [V.int 1, V.int 2].length) (hr : i < rs.length),
        ∃ dp, deserializeElem true echoSel [] "attr"
            ([V.int 1, V.int 2].get ⟨i, hv⟩) dp = .ok (rs.get ⟨i, hr⟩)) ∧
    (∃ rs, V.list [V.int 1, V.int 2] = V.list rs ∧
      rs.length = [V.int 1, V.int 2].length ∧
      ∀ i (hv : i < [V.int 1, V.int 2].length) (hr : i < rs.length),
        serializeElem true echoSel [] ([V.int 1, V.int 2].get ⟨i, hv⟩) V.none
          = .ok (rs.get ⟨i, hr⟩)) := by
  exact ⟨C3_order_and_length.1 true echoSel [] "attr" V.none
      [V.int 1, V.int 2] (V.list [V.int 1, V.int 2]) (by decide),
    C3_order_and_length.2 true echoSel [] V.none [V.int 1, V.int 2]
      (V.list [V.int 1, V.int 2]) (by decide)⟩

/-- C4 counterexample: the claim says the selection-failure message contains
the resolved delegate type name whenever a delegate was produced, and `None`
only when selection itself threw.  The source guards the type name with the
truthiness test `if deserializer:`, so a produced but falsy delegate (here
the integer `0`, of type name `<class int>`) still yields a message whose
class slot is `None` and which does not mention the delegate type name. -/
theorem C4_falsy_delegate_counterexample :
    falsySel (V.int 7) V.none = .ok (.otherObj "<class int>" false) ∧
    polyDeserialize true false falsySel [] (V.int 7) "attr" V.none
      = .error (.validationError (.str (selectionErrorMsg "7" "None"))) ∧
    ¬ strContains (selectionErrorMsg "7" "None") "<class int>" := by
  refine ⟨rfl, by decide, by decide⟩

/-- C4 amended: on every deserialization selection failure the raised
`ValidationError` message contains the offending value, and its class slot
holds the resolved delegate type name whenever a truthy delegate was
produced, while it is the string `None` when selection threw before
producing anything or when the produced delegate is Python-falsy. -/
theorem C4_amended_selection_message (m3 : Bool) (sel : DSel) (fieldCtx : Ctx)
    (attr : String) (v d : V) (des : Option PyObj)
    (hsel : runSelection sel v d = .error des) :
    deserializeElem m3 sel fieldCtx attr v d
      = .error (.validationError (.str
          (selectionErrorMsg (pyStr v) (fmtOptStr (classTypeOf des))))) ∧
    strContains (selectionErrorMsg (pyStr v) (fmtOptStr (classTypeOf des)))
      (pyStr v) ∧
    (∀ o, des = .some o → pyTruthy o = true →
      strContains (selectionErrorMsg (pyStr v) (fmtOptStr (classTypeOf des)))
        (pyTypeName o)) ∧
    ((des = .none ∨ ∃ o, des = .some o ∧ pyTruthy o = false) →
      strContains (selectionErrorMsg (pyStr v) (fmtOptStr (classTypeOf des)))
        "None") := by
  refine ⟨by simp [deserializeElem, hsel],
    selectionErrorMsg_contains_value _ _, ?_, ?_⟩
  · intro o ho ht
    subst ho
    have : fmtOptStr (classTypeOf (Option.some o)) = pyTypeName o := by
      simp [classTypeOf, ht, fmtOptStr]
    rw [this]
    exact selectionErrorMsg_contains_class _ _
  · intro hcase
    have : fmtOptStr (classTypeOf des) = "None" := by
      rcases hcase with h0 | ⟨o, ho, hf⟩
      · subst h0
        rfl
      · subst ho
        simp [classTypeOf, hf, fmtOptStr]
    rw [this]
    exact selectionErrorMsg_contains_class _ _

theorem C4_witness :
    deserializeElem true raisingSel [] "attr" (V.int 7) V.none
      = .error (.validationError (.str (selectionErrorMsg (pyStr (V.int 7))
          (fmtOptStr (classTypeOf Option.none))))) ∧
    strContains (selectionErrorMsg (pyStr (V.int 7))
        (fmtOptStr (classTypeOf Option.none))) (pyStr (V.int 7)) := by
  have h := C4_amended_selection_message true raisingSel [] "attr" (V.int 7)
    V.none Option.none rfl
  exact ⟨h.1, h.2.1⟩

/-- C5: a selector result that is a bare class is instantiated with no
arguments and selection continues exactly as if the selector had returned
that instance; when the normalized delegate is neither a schema nor a field
instance the call raises the selection `ValidationError` naming the offending
value; and a successful deserialization of a single value implies a schema or
field delegate was successfully selected, so an invalid delegate never lets
the value pass through undelegated. -/
theorem C5_type_normalization (m3 : Bool) (sel : DSel) (fieldCtx : Ctx)
    (attr : String) (v d : V) :
    (∀ (mn : String) (inst : PyObj), sel v d = .ok (.typeObj mn (.ok inst)) →
      runSelection sel v d = normInst inst) ∧
    (∀ (mn : String) (inst : PyObj), sel v d = .ok (.typeObj mn (.ok inst)) →
      isDelegateInst inst = false →
      ∃ msg, polyDeserialize m3 false sel fieldCtx v attr d
          = .error (.validationError (.str msg)) ∧ strContains msg (pyStr v)) ∧
    (∀ r, polyDeserialize m3 false sel fieldCtx v attr d = .ok r →
      ∃ del, runSelection sel v d = .ok del) := by
  refine ⟨?_, ?_, ?_⟩
  · intro mn inst hs
    simp [runSelection, hs]
  · intro mn inst hs hno
    have hrs : runSelection sel v d = .error (.some inst) := by
      cases inst with
      | schemaInst s => simp [isDelegateInst] at hno
      | fieldInst f => simp [isDelegateInst] at hno
      | typeObj mn2 con => simp [runSelection, hs, normInst]
      | otherObj nm tr => simp [runSelection, hs, normInst]
    refine ⟨selectionErrorMsg (pyStr v)
      (fmtOptStr (classTypeOf (.some inst))), ?_,
      selectionErrorMsg_contains_value _ _⟩
    simp [polyDeserialize, deserializeLoop, deserializeElem, hrs]
  · intro r h
    cases hrs : runSelection sel v d with
    | error des =>
        simp [polyDeserialize, deserializeLoop, deserializeElem, hrs] at h
    | ok del => exact ⟨del, rfl⟩

theorem C5_witness :
    runSelection typeSel (V.int 3) V.none
      = normInst (.otherObj "<class object>" true) ∧
    (∃ msg, polyDeserialize true false typeSel [] (V.int 3) "attr" V.none
        = .error (.validationError (.str msg)) ∧
      strContains msg (pyStr (V.int 3))) := by
  have h := C5_type_normalization true typeSel [] "attr" (V.int 3) V.none
  exact ⟨h.1 "<class type>" (.otherObj "<class object>" true) rfl,
    h.2.1 "<class type>" (.otherObj "<class object>" true) rfl rfl⟩

/-- C6: on every successful selection, on both paths, the delegate is invoked
with its context updated by the field context (marshmallow schema and field
instances always expose a `context` attribute, captured by the `hasContext`
hypotheses), and the update has the claimed mapping semantics: every
field-set key is visible with the field value, overwriting the delegate
value on overlapping keys, while the delegate keys absent from the field
context keep their delegate values. -/
theorem C6_context_merge :
    (∀ (m3 : Bool) (sel : DSel) (fieldCtx : Ctx) (attr : String) (v d : V)
        (s : SchemaS), runSelection sel v d = .ok (.schemaD s) →
      s.hasContext = true →
      deserializeElem m3 sel fieldCtx attr v d
        = schemaLoadPart m3 s (ctxUpdate s.ctx fieldCtx) v) ∧
    (∀ (m3 : Bool) (sel : DSel) (fieldCtx : Ctx) (attr : String) (v d : V)
        (f : FieldS), runSelection sel v d = .ok (.fieldD f) →
      f.hasContext = true →
      deserializeElem m3 sel fieldCtx attr v d
        = f.deserializeFn (ctxUpdate f.ctx fieldCtx) v attr d) ∧
    (∀ (m3 : Bool) (sel : SSel) (fieldCtx : Ctx) (v obj : V) (s : SchemaS),
      sel v obj = .ok (.schemaInst s) → s.hasContext = true →
      serializeElem m3 sel fieldCtx v obj
        = schemaDumpPart m3 s (ctxUpdate s.ctx fieldCtx) v) ∧
    (∀ (base upd : Ctx) (k : String),
      (∀ val, ctxLookup k upd = Option.some val →
        ctxLookup k (ctxUpdate base upd) = Option.some val) ∧
      (ctxLookup k upd = Option.none →
        ctxLookup k (ctxUpdate base upd) = ctxLookup k base)) := by
  refine ⟨?_, ?_, ?_, ?_⟩
  · intro m3 sel fieldCtx attr v d s hsel hctx
    simp [deserializeElem, hsel, hctx]
  · intro m3 sel fieldCtx attr v d f hsel hctx
    simp [deserializeElem, hsel, hctx]
  · intro m3 sel fieldCtx v obj s hsel hctx
    simp [serializeElem, hsel, hctx]
  · intro base upd k
    exact ⟨fun val h => ctxUpdate_lookup_upd h, fun h => ctxUpdate_lookup_base h⟩

theorem C6_witness :
    deserializeElem true echoSel [("k", V.int 1)] "attr" (V.int 2) V.none
      = schemaLoadPart true echoSchema
          (ctxUpdate echoSchema.ctx [("k", V.int 1)]) (V.int 2) ∧
    ctxLookup "k" (ctxUpdate [("k", V.int 0), ("j", V.int 5)]
        [("k", V.int 1)]) = Option.some (V.int 1) ∧
    ctxLookup "j" (ctxUpdate [("k", V.int 0), ("j", V.int 5)]
        [("k", V.int 1)]) = ctxLookup "j" [("k", V.int 0), ("j", V.int 5)] := by
  refine ⟨C6_context_merge.1 true echoSel [("k", V.int 1)] "attr" (V.int 2)
      V.none echoSchema rfl rfl, ?_, ?_⟩
  · exact (C6_context_merge.2.2.2 [("k", V.int 0), ("j", V.int 5)]
      [("k", V.int 1)] "k").1 (V.int 1) (by decide)
  · exact (C6_context_merge.2.2.2 [("k", V.int 0), ("j", V.int 5)]
      [("k", V.int 1)] "j").2 (by decide)

/-- C7: on the serialization path with a non-null value, every exception
raised by the body (selector call, context access or merge, dump) is caught
and re-raised as a `TypeError` whose message contains the original error text
and the rendered offending value, and every error a serialize call can
surface is such a `TypeError`, never the original exception kind. -/
theorem C7_serialize_error_wrapping (m3 many : Bool) (sel : SSel)
    (fieldCtx : Ctx) (value obj : V) (hnn : value ≠ V.none) :
    (∀ err, serializeBody m3 many sel fieldCtx value obj = .error err →
      polySerialize m3 many sel fieldCtx value obj
        = .error (.typeError (serializeErrorMsg (pyErrStr err)
            (pyStr value))) ∧
      strContains (serializeErrorMsg (pyErrStr err) (pyStr value))
        (pyErrStr err) ∧
      strContains (serializeErrorMsg (pyErrStr err) (pyStr value))
        (pyStr value)) ∧
    (∀ e, polySerialize m3 many sel fieldCtx value obj = .error e →
      ∃ msg, e = .typeError msg) := by
  constructor
  · intro err herr
    exact ⟨by simp [polySerialize, hnn, herr],
      serializeErrorMsg_contains_err _ _, serializeErrorMsg_contains_value _ _⟩
  · intro e he
    rw [polySerialize, if_neg hnn] at he
    cases hb : serializeBody m3 many sel fieldCtx value obj with
    | ok r => simp [hb] at he
    | error err =>
        simp [hb] at he
        exact ⟨serializeErrorMsg (pyErrStr err) (pyStr value), he.symm⟩

theorem C7_witness :
    polySerialize true false raisingSel [] (V.int 5) V.none
      = .error (.typeError (serializeErrorMsg (pyErrStr (.exn "boom"))
          (pyStr (V.int 5)))) ∧
    strContains (serializeErrorMsg (pyErrStr (.exn "boom")) (pyStr (V.int 5)))
      (pyStr (V.int 5)) := by
  have h := (C7_serialize_error_wrapping true false raisingSel [] (V.int 5)
    V.none (by decide)).1 (.exn "boom") rfl
  exact ⟨h.1, h.2.2⟩

/-- C8: when the selected schema delegate reports validation errors during a
single-value load, deserialize surfaces them as this field `ValidationError`
carrying the nested schema structured error content unchanged, under both
host conventions: under marshmallow 3 the raised `ValidationError` propagates
as is, and under marshmallow 2 a truthy errors component of the (data,
errors) pair is re-raised as `ValidationError(errors)`. -/
theorem C8_nested_validation_errors (sel : DSel) (fieldCtx : Ctx)
    (attr : String) (v d : V) (s : SchemaS) (errs : V)
    (hsel : runSelection sel v d = .ok (.schemaD s)) :
    (s.load3 (if s.hasContext then ctxUpdate s.ctx fieldCtx else s.ctx) v
        = .error (.validationError errs) →
      polyDeserialize true false sel fieldCtx v attr d
        = .error (.validationError errs)) ∧
    (∀ dta,
      s.load2 (if s.hasContext then ctxUpdate s.ctx fieldCtx else s.ctx) v
        = .ok (dta, errs) →
      vTruthy errs = true →
      polyDeserialize false false sel fieldCtx v attr d
        = .error (.validationError errs)) := by
  constructor
  · intro hload
    simp [polyDeserialize, deserializeLoop, deserializeElem, hsel,
      schemaLoadPart, hload]
  · intro dta hload herrs
    simp [polyDeserialize, deserializeLoop, deserializeElem, hsel,
      schemaLoadPart, hload, herrs]

theorem C8_witness :
    polyDeserialize true false badSel [] (V.int 1) "attr" V.none
      = .error (.validationError (.list [.str "bad"])) ∧
    polyDeserialize false false badSel [] (V.int 1) "attr" V.none
      = .error (.validationError (.list [.str "bad"])) := by
  have h := C8_nested_validation_errors badSel [] "attr" (V.int 1) V.none
    badSchema (.list [.str "bad"]) rfl
  exact ⟨h.1 rfl, h.2 V.none rfl rfl⟩

end Polyfield
